import Mathlib

/-!
Verification development for the procedural map generator and chunk cache of
the portfolio-game repository (`MapGenerator`, `Scale`, `engine/config`).

Modelling conventions:
* JavaScript numbers are modelled by `ℝ`; `Math.floor` is `Int.floor`,
  `Math.round` is `jsRound` (floor of `x + 1/2`, which is JS semantics for
  `Math.round`), `Math.sqrt` is `Real.sqrt`, `Math.sin`/`cos` are
  `Real.sin`/`Real.cos`.
* The seeded pseudo-random source `seededRandom` is the source's
  trigonometric hash.  All generator functions are stated over an arbitrary
  random source `rand : ℝ → ℝ → ℝ → ℝ` (the source code always instantiates
  `rand := seededRandom`); theorems that need it carry the random-source
  contract `0 ≤ rand x y s < 1` from the spec's Deterministic Random Source
  section.  Keeping the source abstract lets concrete witnesses evaluate the
  generators, which is impossible for exact `Real.sin` values.
* JavaScript template-literal keys `` `${x},${y}` `` are modelled by
  `getKey`, built from a decimal integer printer `natRepr`/`intRepr`.
* The mutable `Map` inside `ChunkCache` is modelled as an association list
  in insertion order; `Map.has`/`Map.get` are `cacheFind`, `Map.set` on a
  fresh key appends, and the `cleanup` delete pass is a filter.
-/

/-- Fallback decidability for the real-number tests inside the generators
(the source compares IEEE doubles; the model compares reals). -/
noncomputable instance (priority := 10) propDecidableFallback (p : Prop) : Decidable p :=
  Classical.propDecidable p

/-- Opaque texture handle; the generator never inspects it. -/
structure Texture where
  tid : ℕ
deriving DecidableEq

/-- Texture dictionary loaded by `AssetLoader` (only its field names reach
the generator). -/
structure AssetDictionary where
  mountain : Texture
  rocks : Texture
  tree : Texture
  soil : Texture
  grass : Texture
  sand : Texture
  shoal : Texture
  oceanShallow : Texture
  oceanSemiDeep : Texture
  oceanSuperDeep : Texture
  cloudCovered : Texture
  cloudLessCoverOcean : Texture

/-- Scale.ts: `GAME_SCALE = 1`. -/
def GAME_SCALE : ℝ := 1

/-- Scale.ts: `SPRITE_TILE_SIZE = 10`. -/
def SPRITE_TILE_SIZE : ℝ := 10

/-- Scale.ts: `TILE_SIZE = SPRITE_TILE_SIZE * GAME_SCALE`. -/
def TILE_SIZE : ℝ := SPRITE_TILE_SIZE * GAME_SCALE

/-- Scale.ts: `CHUNK_SIZE = 64` tiles per chunk. -/
def CHUNK_SIZE : ℝ := 64

/-- engine/config.tsx: `gameProps.CLOUD_SIZE = 1`. -/
def CLOUD_SIZE : ℝ := 1

/-- MapGenerator: one tile of an island (offset relative to the island
center plus a texture). -/
structure IslandTile where
  offsetX : ℝ
  offsetY : ℝ
  texture : Texture

/-- MapGenerator: `Island` record. -/
structure Island where
  id : String
  centerX : ℝ
  centerY : ℝ
  radius : ℝ
  tiles : List IslandTile

/-- MapGenerator: `CloudFormation` record. -/
structure CloudFormation where
  id : String
  centerX : ℝ
  centerY : ℝ
  radius : ℝ
  tiles : List IslandTile

/-- MapGenerator: `Chunk` record. -/
structure Chunk where
  chunkX : ℤ
  chunkY : ℤ
  islands : List Island
  clouds : List CloudFormation
  deepOceanPatches : List (ℝ × ℝ)

/-- MapGenerator: `seededRandom(x, y, seed)`, the trigonometric hash
`fract(sin(x*12.9898 + y*78.233 + seed) * 43758.5453)`. -/
noncomputable def seededRandom (x y seed : ℝ) : ℝ :=
  let n := Real.sin (x * 12.9898 + y * 78.233 + seed) * 43758.5453
  n - ⌊n⌋

/-- JS `Math.round`: floor of `x + 1/2`. -/
noncomputable def jsRound (x : ℝ) : ℝ := (⌊x + 1/2⌋ : ℤ)

/-- Inclusive integer range `[a, b]` as a list, used to model JS
`for (let k = a; k <= b; k++)` loops. -/
def intRange (a b : ℤ) : List ℤ :=
  (List.range (b + 1 - a).toNat).map (fun k : ℕ => a + (k : ℤ))

/-- Decimal digit list of a natural number, most significant first; models
how JS prints a nonnegative integer inside a template literal. -/
def natRepr (n : ℕ) : List Char :=
  if _h : n < 10 then [Nat.digitChar n]
  else natRepr (n / 10) ++ [Nat.digitChar (n % 10)]
decreasing_by
  exact Nat.div_lt_self (by omega) (by omega)

/-- Decimal printing of an integer (minus sign for negatives), as JS does
inside a template literal. -/
def intRepr (i : ℤ) : List Char :=
  if i < 0 then '-' :: natRepr i.natAbs else natRepr i.toNat

/-- MapGenerator: `ChunkCache.getKey`, the template literal
`` `${chunkX},${chunkY}` ``. -/
def getKey (chunkX chunkY : ℤ) : String :=
  ⟨intRepr chunkX ++ ',' :: intRepr chunkY⟩

/-- MapGenerator: the id template literal `` `${chunkX},${chunkY},${i}` ``
used for islands and clouds. -/
def islandId (chunkX chunkY : ℤ) (i : ℕ) : String :=
  ⟨intRepr chunkX ++ ',' :: (intRepr chunkY ++ ',' :: natRepr i)⟩

section Generation

variable (rand : ℝ → ℝ → ℝ → ℝ)

/-- MapGenerator: `noise2D(x, y, seed, scale)`, three octaves of the base
random source at doubling frequency and halving amplitude, normalized. -/
noncomputable def noise2D (x y seed scale : ℝ) : ℝ :=
  let scaledX := x * scale
  let scaledY := y * scale
  let acc := (List.range 3).foldl
    (fun (acc : ℝ × ℝ × ℝ) (i : ℕ) =>
      (acc.1 + rand (scaledX * acc.2.2) (scaledY * acc.2.2) (seed + (i : ℝ) * 1000) * acc.2.1,
        acc.2.1 * 0.5, acc.2.2 * 2))
    (0, 1, 1)
  acc.1 / 1.75

/-- MapGenerator: the four island shape families. -/
inductive IslandShape
  | circle
  | oval
  | diagonal
  | irregular
deriving DecidableEq

/-- Tile-unit x offset of island candidate `i` inside its chunk:
`seededRandom(chunkX, chunkY, seed + i*10) * CHUNK_SIZE * 0.6 + CHUNK_SIZE * 0.2`. -/
noncomputable def islandOffsetX (chunkX chunkY : ℤ) (seed : ℝ) (i : ℕ) : ℝ :=
  rand (chunkX : ℝ) (chunkY : ℝ) (seed + (i : ℝ) * 10) * CHUNK_SIZE * 0.6 + CHUNK_SIZE * 0.2

/-- Tile-unit y offset of island candidate `i` inside its chunk. -/
noncomputable def islandOffsetY (chunkX chunkY : ℤ) (seed : ℝ) (i : ℕ) : ℝ :=
  rand (chunkX : ℝ) (chunkY : ℝ) (seed + (i : ℝ) * 10 + 1) * CHUNK_SIZE * 0.6 + CHUNK_SIZE * 0.2

/-- World-pixel x coordinate of island candidate `i`:
`(chunkX * CHUNK_SIZE + offsetX) * TILE_SIZE`. -/
noncomputable def islandCenterX (chunkX chunkY : ℤ) (seed : ℝ) (i : ℕ) : ℝ :=
  ((chunkX : ℝ) * CHUNK_SIZE + islandOffsetX rand chunkX chunkY seed i) * TILE_SIZE

/-- World-pixel y coordinate of island candidate `i`. -/
noncomputable def islandCenterY (chunkX chunkY : ℤ) (seed : ℝ) (i : ℕ) : ℝ :=
  ((chunkY : ℝ) * CHUNK_SIZE + islandOffsetY rand chunkX chunkY seed i) * TILE_SIZE

/-- Base radius in tiles of island candidate `i`:
`Math.floor(seededRandom(chunkX, chunkY, seed + i*10 + 2) * 10) + 8`. -/
noncomputable def islandBaseRadius (chunkX chunkY : ℤ) (seed : ℝ) (i : ℕ) : ℤ :=
  ⌊rand (chunkX : ℝ) (chunkY : ℝ) (seed + (i : ℝ) * 10 + 2) * 10⌋ + 8

/-- Estimated pixel radius of island candidate `i`:
`baseRadius * TILE_SIZE * 1.8` (max reach with water-transition rings). -/
noncomputable def islandEstimatedRadius (chunkX chunkY : ℤ) (seed : ℝ) (i : ℕ) : ℝ :=
  (islandBaseRadius rand chunkX chunkY seed i : ℝ) * TILE_SIZE * 1.8

/-- Shape draw of island candidate `i`:
`seededRandom(chunkX, chunkY, seed + i*10 + 3)`. -/
noncomputable def islandShapeType (chunkX chunkY : ℤ) (seed : ℝ) (i : ℕ) : ℝ :=
  rand (chunkX : ℝ) (chunkY : ℝ) (seed + (i : ℝ) * 10 + 3)

/-- Shape family of island candidate `i` (circle below 0.3, oval below 0.5,
diagonal below 0.65, otherwise irregular). -/
noncomputable def islandShape (chunkX chunkY : ℤ) (seed : ℝ) (i : ℕ) : IslandShape :=
  let shapeType := islandShapeType rand chunkX chunkY seed i
  if shapeType < 0.3 then IslandShape.circle
  else if shapeType < 0.5 then IslandShape.oval
  else if shapeType < 0.65 then IslandShape.diagonal
  else IslandShape.irregular

/-- MapGenerator: the `wouldOverlap` test in `generateIslandsForChunk` — the
candidate is within `estimatedRadius + existing.radius + 50` of some
already-accepted island. -/
def wouldOverlap (islands : List Island) (centerX centerY estimatedRadius : ℝ) : Prop :=
  ∃ existing ∈ islands,
    Real.sqrt ((centerX - existing.centerX) * (centerX - existing.centerX) +
        (centerY - existing.centerY) * (centerY - existing.centerY)) <
      estimatedRadius + existing.radius + 50

/-- One scanned cell of `buildIsland`: rotation/stretch normalization,
distance (plus noise for irregular shapes), then the layered band
classification; `none` beyond `1.8` (background deep ocean). -/
noncomputable def islandTileAt (radiusTiles : ℤ) (shape : IslandShape)
    (seed stretchX stretchY rotation : ℝ) (assets : AssetDictionary)
    (dx dy : ℤ) : Option IslandTile :=
  let rx := (if rotation ≠ 0 then
      (dx : ℝ) * Real.cos rotation - (dy : ℝ) * Real.sin rotation else (dx : ℝ)) / stretchX
  let ry := (if rotation ≠ 0 then
      (dx : ℝ) * Real.sin rotation + (dy : ℝ) * Real.cos rotation else (dy : ℝ)) / stretchY
  let baseDist := Real.sqrt (rx * rx + ry * ry)
  let distance := if shape = IslandShape.irregular then
      baseDist + (noise2D rand (dx : ℝ) (dy : ℝ) seed 0.2 - 0.5) * 3 else baseDist
  let normalizedDist := distance / (radiusTiles : ℝ)
  let tileRandom := rand (dx : ℝ) (dy : ℝ) seed
  let texture : Option Texture :=
    if normalizedDist < 0.2 then some assets.mountain
    else if normalizedDist < 0.4 then
      some (if tileRandom < 0.8 then assets.rocks else assets.tree)
    else if normalizedDist < 0.6 then
      some (if tileRandom < 0.3 then assets.soil
        else if tileRandom < 0.5 then assets.tree
        else if tileRandom < 0.75 then assets.grass
        else assets.sand)
    else if normalizedDist < 0.8 then
      some (if tileRandom < 0.6 then assets.sand else assets.grass)
    else if normalizedDist < 1.0 then
      some (if tileRandom < 0.7 then assets.sand else assets.shoal)
    else if normalizedDist < 1.2 then some assets.shoal
    else if normalizedDist < 1.5 then some assets.oceanShallow
    else if normalizedDist < 1.8 then some assets.oceanSemiDeep
    else none
  texture.map (fun t =>
    { offsetX := (dx : ℝ) * TILE_SIZE, offsetY := (dy : ℝ) * TILE_SIZE, texture := t })

/-- MapGenerator: `buildIsland` — shape modifiers, then a scan of the square
window of half-side `radius + 8`, collecting classified tiles. -/
noncomputable def buildIsland (id : String) (centerX centerY : ℝ) (baseRadius : ℤ)
    (shape : IslandShape) (seed : ℝ) (assets : AssetDictionary) : Island :=
  let radiusTiles := baseRadius
  let horizontal := rand 0 0 seed > 0.5
  let stretchX : ℝ := if shape = IslandShape.oval then (if horizontal then 1.5 else 0.7)
    else if shape = IslandShape.diagonal then 1.4 else 1
  let stretchY : ℝ := if shape = IslandShape.oval then (if horizontal then 0.7 else 1.5)
    else if shape = IslandShape.diagonal then 0.8 else 1
  let rotation : ℝ := if shape = IslandShape.diagonal then rand 1 0 seed * (Real.pi / 2) else 0
  let scanRadius := radiusTiles + 8
  let tiles := (intRange (-scanRadius) scanRadius).flatMap (fun dy =>
    (intRange (-scanRadius) scanRadius).filterMap (fun dx =>
      islandTileAt rand radiusTiles shape seed stretchX stretchY rotation assets dx dy))
  { id := id, centerX := centerX, centerY := centerY,
    radius := (radiusTiles : ℝ) * TILE_SIZE, tiles := tiles }

/-- Island count drawn for an occupied chunk:
`Math.floor(seededRandom(chunkX, chunkY, seed + 100) * 3) + 1`. -/
noncomputable def islandCount (chunkX chunkY : ℤ) (seed : ℝ) : ℕ :=
  (⌊rand (chunkX : ℝ) (chunkY : ℝ) (seed + 100) * 3⌋ + 1).toNat

/-- Loop body of `generateIslandsForChunk`: skip the candidate if it would
overlap an accepted island, otherwise build and append it. -/
noncomputable def islandStep (chunkX chunkY : ℤ) (seed : ℝ) (assets : AssetDictionary)
    (islands : List Island) (i : ℕ) : List Island :=
  let centerX := islandCenterX rand chunkX chunkY seed i
  let centerY := islandCenterY rand chunkX chunkY seed i
  let estimatedRadius := islandEstimatedRadius rand chunkX chunkY seed i
  if wouldOverlap islands centerX centerY estimatedRadius then islands
  else islands ++ [buildIsland rand (islandId chunkX chunkY i) centerX centerY
    (islandBaseRadius rand chunkX chunkY seed i)
    (islandShape rand chunkX chunkY seed i) (seed + (i : ℝ) * 100) assets]

/-- MapGenerator: `generateIslandsForChunk` — a 30% occupancy draw, then the
candidate loop. -/
noncomputable def generateIslandsForChunk (chunkX chunkY : ℤ) (seed : ℝ)
    (assets : AssetDictionary) : List Island :=
  if rand (chunkX : ℝ) (chunkY : ℝ) seed < 0.3 then
    (List.range (islandCount rand chunkX chunkY seed)).foldl
      (islandStep rand chunkX chunkY seed assets) []
  else []

/-- Deep-ocean patch count for a chunk:
`Math.floor(seededRandom(chunkX, chunkY, seed + 9000) * 6) + 3`. -/
noncomputable def patchCount (chunkX chunkY : ℤ) (seed : ℝ) : ℤ :=
  ⌊rand (chunkX : ℝ) (chunkY : ℝ) (seed + 9000) * 6⌋ + 3

/-- Tile-unit x position (within the chunk) of patch candidate `i`. -/
noncomputable def patchCenterX (chunkX chunkY : ℤ) (seed : ℝ) (i : ℕ) : ℤ :=
  ⌊rand (chunkX : ℝ) (chunkY : ℝ) (seed + 9000 + (i : ℝ) * 3) * CHUNK_SIZE⌋

/-- Tile-unit y position (within the chunk) of patch candidate `i`. -/
noncomputable def patchCenterY (chunkX chunkY : ℤ) (seed : ℝ) (i : ℕ) : ℤ :=
  ⌊rand (chunkX : ℝ) (chunkY : ℝ) (seed + 9000 + (i : ℝ) * 3 + 1) * CHUNK_SIZE⌋

/-- Radius in tiles of patch candidate `i`:
`Math.floor(seededRandom(chunkX, chunkY, seed + 9000 + i*3 + 2) * 5) + 3`. -/
noncomputable def patchSize (chunkX chunkY : ℤ) (seed : ℝ) (i : ℕ) : ℤ :=
  ⌊rand (chunkX : ℝ) (chunkY : ℝ) (seed + 9000 + (i : ℝ) * 3 + 2) * 5⌋ + 3

/-- World-pixel x coordinate of patch candidate `i`:
`(chunkX * CHUNK_SIZE + patchCenterX) * TILE_SIZE`. -/
noncomputable def patchGlobalX (chunkX chunkY : ℤ) (seed : ℝ) (i : ℕ) : ℝ :=
  ((chunkX : ℝ) * CHUNK_SIZE + (patchCenterX rand chunkX chunkY seed i : ℝ)) * TILE_SIZE

/-- World-pixel y coordinate of patch candidate `i`. -/
noncomputable def patchGlobalY (chunkX chunkY : ℤ) (seed : ℝ) (i : ℕ) : ℝ :=
  ((chunkY : ℝ) * CHUNK_SIZE + (patchCenterY rand chunkX chunkY seed i : ℝ)) * TILE_SIZE

/-- MapGenerator: the `farFromIslands` acceptance test of
`generateDeepOceanPatches` — the candidate center is more than
`island.radius + 100` pixels from every island center. -/
def patchFarFromIslands (islands : List Island) (globalX globalY : ℝ) : Prop :=
  ∀ island ∈ islands,
    Real.sqrt ((globalX - island.centerX) * (globalX - island.centerX) +
        (globalY - island.centerY) * (globalY - island.centerY)) >
      island.radius + 100

/-- The disk of super-deep-ocean points pushed for one accepted patch
center: offsets within `patchSize` (Euclidean) of the center. -/
noncomputable def patchDisk (globalX globalY : ℝ) (size : ℤ) : List (ℝ × ℝ) :=
  (intRange (-size) size).flatMap (fun py =>
    (intRange (-size) size).filterMap (fun px =>
      if Real.sqrt ((px : ℝ) * (px : ℝ) + (py : ℝ) * (py : ℝ)) ≤ (size : ℝ) then
        some (globalX + (px : ℝ) * TILE_SIZE, globalY + (py : ℝ) * TILE_SIZE)
      else none))

/-- Loop body of `generateDeepOceanPatches`: a rejected candidate is simply
dropped, an accepted one contributes its disk of points. -/
noncomputable def patchStep (chunkX chunkY : ℤ) (seed : ℝ) (islands : List Island)
    (acc : List (ℝ × ℝ)) (i : ℕ) : List (ℝ × ℝ) :=
  let globalX := patchGlobalX rand chunkX chunkY seed i
  let globalY := patchGlobalY rand chunkX chunkY seed i
  if patchFarFromIslands islands globalX globalY then
    acc ++ patchDisk globalX globalY (patchSize rand chunkX chunkY seed i)
  else acc

/-- MapGenerator: `generateDeepOceanPatches`. -/
noncomputable def generateDeepOceanPatches (chunkX chunkY : ℤ) (seed : ℝ)
    (islands : List Island) : List (ℝ × ℝ) :=
  (List.range (patchCount rand chunkX chunkY seed).toNat).foldl
    (patchStep rand chunkX chunkY seed islands) []

/-- View of the same loop: the candidate centers that pass the
`farFromIslands` test (in draw order). -/
noncomputable def deepOceanAcceptedCenters (chunkX chunkY : ℤ) (seed : ℝ)
    (islands : List Island) : List (ℝ × ℝ) :=
  (List.range (patchCount rand chunkX chunkY seed).toNat).foldl
    (fun acc i =>
      if patchFarFromIslands islands (patchGlobalX rand chunkX chunkY seed i)
          (patchGlobalY rand chunkX chunkY seed i) then
        acc ++ [(patchGlobalX rand chunkX chunkY seed i, patchGlobalY rand chunkX chunkY seed i)]
      else acc) []

/-- Cloud slot count for a chunk:
`Math.floor(seededRandom(chunkX, chunkY, seed + 7000) * 3) + 1`. -/
noncomputable def cloudCount (chunkX chunkY : ℤ) (seed : ℝ) : ℕ :=
  (⌊rand (chunkX : ℝ) (chunkY : ℝ) (seed + 7000) * 3⌋ + 1).toNat

/-- MapGenerator: the `checkOverlap` helper of `generateCloudsForChunk` —
the candidate comes within `radius*CLOUD_SIZE + cloud.radius*CLOUD_SIZE`
plus the `150 * CLOUD_SIZE` buffer of an accepted cloud. -/
def checkOverlap (clouds : List CloudFormation) (x y radius : ℝ) : Prop :=
  ∃ cloud ∈ clouds,
    Real.sqrt ((x - cloud.centerX) * (x - cloud.centerX) +
        (y - cloud.centerY) * (y - cloud.centerY)) <
      radius * CLOUD_SIZE + cloud.radius * CLOUD_SIZE + 150 * CLOUD_SIZE

/-- World-pixel x center drawn for cloud slot `i` at the given attempt. -/
noncomputable def cloudDrawX (chunkX chunkY : ℤ) (seed : ℝ) (i attempts : ℕ) : ℝ :=
  (chunkX : ℝ) * CHUNK_SIZE * TILE_SIZE +
    rand (chunkX : ℝ) (chunkY : ℝ) (seed + 8000 + (i : ℝ) * 5 + (attempts : ℝ)) *
      CHUNK_SIZE * TILE_SIZE

/-- World-pixel y center drawn for cloud slot `i` at the given attempt. -/
noncomputable def cloudDrawY (chunkX chunkY : ℤ) (seed : ℝ) (i attempts : ℕ) : ℝ :=
  (chunkY : ℝ) * CHUNK_SIZE * TILE_SIZE +
    rand (chunkX : ℝ) (chunkY : ℝ) (seed + 8000 + (i : ℝ) * 5 + 1 + (attempts : ℝ)) *
      CHUNK_SIZE * TILE_SIZE

/-- Radius drawn for cloud slot `i` at the given attempt:
`Math.floor(seededRandom(...) * 100) + 1`. -/
noncomputable def cloudDrawRadius (chunkX chunkY : ℤ) (seed : ℝ) (i attempts : ℕ) : ℝ :=
  (⌊rand (chunkX : ℝ) (chunkY : ℝ) (seed + 8000 + (i : ℝ) * 5 + 2 + (attempts : ℝ)) * 100⌋ : ℤ) + 1

/-- MapGenerator: the do/while placement loop of one cloud slot.  Each pass
draws a center and radius, increments `attempts`, and repeats while the
draw overlaps an accepted cloud and fewer than `maxAttempts = 10` draws
were made.  Returns the last draw and the final `attempts` counter. -/
noncomputable def cloudPlaceLoop (clouds : List CloudFormation) (chunkX chunkY : ℤ)
    (seed : ℝ) (i : ℕ) (attempts : ℕ) : (ℝ × ℝ × ℝ) × ℕ :=
  let centerX := cloudDrawX rand chunkX chunkY seed i attempts
  let centerY := cloudDrawY rand chunkX chunkY seed i attempts
  let radius := cloudDrawRadius rand chunkX chunkY seed i attempts
  if h : checkOverlap clouds centerX centerY radius ∧ attempts + 1 < 10 then
    cloudPlaceLoop clouds chunkX chunkY seed i (attempts + 1)
  else ((centerX, centerY, radius), attempts + 1)
termination_by 10 - attempts
decreasing_by
  omega

/-- One scattered tile of `buildCloudFormation`: polar draw with the
two-uniform-average radial distribution, elliptical scaling, rotation, the
0.7 core/edge split, and snapping to the tile grid. -/
noncomputable def cloudTileAt (seed rotation width height : ℝ)
    (assets : AssetDictionary) (i : ℕ) : IslandTile :=
  let angle := rand (i : ℝ) 0 seed * Real.pi * 2
  let randomDist1 := rand (i : ℝ) 1 seed
  let randomDist2 := rand (i : ℝ) 2 seed
  let gaussianDist := (randomDist1 + randomDist2) / 2
  let distanceFactor := gaussianDist * 0.95
  let offsetX := Real.cos angle * width * distanceFactor
  let offsetY := Real.sin angle * height * distanceFactor
  let rotatedX := offsetX * Real.cos rotation - offsetY * Real.sin rotation
  let rotatedY := offsetX * Real.sin rotation + offsetY * Real.cos rotation
  let texture := if distanceFactor < 0.7 then assets.cloudCovered else assets.cloudLessCoverOcean
  { offsetX := jsRound (rotatedX / TILE_SIZE) * TILE_SIZE,
    offsetY := jsRound (rotatedY / TILE_SIZE) * TILE_SIZE, texture := texture }

/-- MapGenerator: `buildCloudFormation` — aspect draw (tall/wide/circular),
rotation in `[0, π)`, area-based tile count, and the tile scatter. -/
noncomputable def buildCloudFormation (id : String) (centerX centerY radius seed : ℝ)
    (assets : AssetDictionary) : CloudFormation :=
  let aspectRand := rand 0 2 seed
  let aspect : ℝ :=
    if aspectRand < 0.33 then 0.6 + rand 0 3 seed * 0.2
    else if aspectRand < 0.66 then 1.2 + rand 0 4 seed * 0.4
    else 0.9 + rand 0 5 seed * 0.2
  let rotation := rand 0 6 seed * Real.pi
  let width := radius * aspect * CLOUD_SIZE
  let height := radius / aspect * 0.8 * CLOUD_SIZE
  let tileCount := (⌊(width * height * 3) / (TILE_SIZE * TILE_SIZE)⌋).toNat
  let tiles := (List.range tileCount).map (cloudTileAt rand seed rotation width height assets)
  { id := id, centerX := centerX, centerY := centerY, radius := radius, tiles := tiles }

/-- Loop body of `generateCloudsForChunk`: run the placement loop; if the
attempt budget was exhausted and the final draw still overlaps, the slot is
dropped, otherwise the cloud is built and appended. -/
noncomputable def cloudSlotStep (chunkX chunkY : ℤ) (seed : ℝ) (assets : AssetDictionary)
    (clouds : List CloudFormation) (i : ℕ) : List CloudFormation :=
  let res := cloudPlaceLoop rand clouds chunkX chunkY seed i 0
  let draw := res.1
  if res.2 ≥ 10 ∧ checkOverlap clouds draw.1 draw.2.1 draw.2.2 then clouds
  else clouds ++ [buildCloudFormation rand (islandId chunkX chunkY i)
    draw.1 draw.2.1 draw.2.2 (seed + (i : ℝ) * 50) assets]

/-- MapGenerator: `generateCloudsForChunk`.  The `islands` argument is
accepted (as in the source) but the placement only tests against clouds. -/
noncomputable def generateCloudsForChunk (chunkX chunkY : ℤ) (seed : ℝ)
    (_islands : List Island) (assets : AssetDictionary) : List CloudFormation :=
  (List.range (cloudCount rand chunkX chunkY seed)).foldl
    (cloudSlotStep rand chunkX chunkY seed assets) []

/-- MapGenerator: `generateChunk` — islands, then deep-ocean patches, then
clouds, assembled into an immutable record. -/
noncomputable def generateChunk (chunkX chunkY : ℤ) (seed : ℝ)
    (assets : AssetDictionary) : Chunk :=
  let islands := generateIslandsForChunk rand chunkX chunkY seed assets
  let deepOceanPatches := generateDeepOceanPatches rand chunkX chunkY seed islands
  let clouds := generateCloudsForChunk rand chunkX chunkY seed islands assets
  { chunkX := chunkX, chunkY := chunkY, islands := islands,
    clouds := clouds, deepOceanPatches := deepOceanPatches }

end Generation

/-- MapGenerator: the `ChunkCache` state — construction seed, asset handle,
and the key→chunk table (association list in `Map` insertion order). -/
structure ChunkCache where
  seed : ℝ
  assets : AssetDictionary
  cache : List (String × Chunk)

/-- Lookup in the cache table (JS `Map.get`/`Map.has`). -/
def cacheFind : List (String × Chunk) → String → Option Chunk
  | [], _ => none
  | (k, c) :: rest, key => if k = key then some c else cacheFind rest key

/-- MapGenerator: `new ChunkCache(seed, assets)` — empty table. -/
def ChunkCache.init (seed : ℝ) (assets : AssetDictionary) : ChunkCache :=
  { seed := seed, assets := assets, cache := [] }

section Cache

variable (rand : ℝ → ℝ → ℝ → ℝ)

/-- MapGenerator: `ChunkCache.getChunk` — on a miss, generate the chunk and
append it to the table; return the chunk under the key together with the
updated cache state. -/
noncomputable def ChunkCache.getChunk (st : ChunkCache) (chunkX chunkY : ℤ) :
    Chunk × ChunkCache :=
  let key := getKey chunkX chunkY
  match cacheFind st.cache key with
  | some c => (c, st)
  | none =>
    let c := generateChunk rand chunkX chunkY st.seed st.assets
    (c, { st with cache := st.cache ++ [(key, c)] })

/-- Sequential `getChunk` over a list of coordinates: fetch each chunk
through the cache, threading the updated state (recursion form of the
source's push loop). -/
noncomputable def getChunksList (st : ChunkCache) : List (ℤ × ℤ) → List Chunk × ChunkCache
  | [] => ([], st)
  | p :: ps =>
    let q := ChunkCache.getChunk rand st p.1 p.2
    let rest := getChunksList q.2 ps
    (q.1 :: rest.1, rest.2)

/-- The inclusive coordinate square visited by `getChunksInRadius`
(`dy` outer, `dx` inner, as in the source loops). -/
def squareCoords (centerChunkX centerChunkY radius : ℤ) : List (ℤ × ℤ) :=
  (intRange (-radius) radius).flatMap (fun dy =>
    (intRange (-radius) radius).map (fun dx => (centerChunkX + dx, centerChunkY + dy)))

/-- MapGenerator: `ChunkCache.getChunksInRadius` — collect `getChunk` over
the inclusive square around the center (`dy` outer loop, `dx` inner loop),
generating missing chunks as a side effect. -/
noncomputable def ChunkCache.getChunksInRadius (st : ChunkCache)
    (centerChunkX centerChunkY radius : ℤ) : List Chunk × ChunkCache :=
  (intRange (-radius) radius).foldl (fun acc dy =>
    (intRange (-radius) radius).foldl (fun acc2 dx =>
      let q := ChunkCache.getChunk rand acc2.2 (centerChunkX + dx) (centerChunkY + dy)
      (acc2.1 ++ [q.1], q.2)) acc) ([], st)

end Cache

/-- MapGenerator: `ChunkCache.cleanup` — delete every entry whose chunk lies
outside the Chebyshev keep-window around the center. -/
def ChunkCache.cleanup (st : ChunkCache) (centerChunkX centerChunkY keepRadius : ℤ) :
    ChunkCache :=
  { st with cache := st.cache.filter (fun p =>
      !(decide (|p.2.chunkX - centerChunkX| > keepRadius) ||
        decide (|p.2.chunkY - centerChunkY| > keepRadius))) }

/-- Concrete asset dictionary used to instantiate theorems on examples. -/
def sampleAssets : AssetDictionary :=
  ⟨⟨0⟩, ⟨1⟩, ⟨2⟩, ⟨3⟩, ⟨4⟩, ⟨5⟩, ⟨6⟩, ⟨7⟩, ⟨8⟩, ⟨9⟩, ⟨10⟩, ⟨11⟩⟩

/-- Constant-zero random source (satisfies the `[0,1)` contract); used to
instantiate theorems on concrete inputs. -/
def constZeroRand : ℝ → ℝ → ℝ → ℝ := fun _ _ _ => 0

/-- Spacing actually enforced by the source: a later-accepted island `b`
keeps distance at least `1.8 * b.radius + a.radius + 50` from each
earlier-accepted island `a` (the `1.8` factor is applied to the incoming
candidate only, the existing island contributes its plain radius). -/
def islandPairSpacedCode (a b : Island) : Prop :=
  Real.sqrt ((b.centerX - a.centerX) * (b.centerX - a.centerX) +
      (b.centerY - a.centerY) * (b.centerY - a.centerY)) ≥
    1.8 * b.radius + a.radius + 50

/-- Spacing asserted by the claim: distance at least the sum of both
islands' estimated radii (`1.8 ×` each) plus the 50 px margin. -/
def islandPairSpacedClaim (a b : Island) : Prop :=
  Real.sqrt ((b.centerX - a.centerX) * (b.centerX - a.centerX) +
      (b.centerY - a.centerY) * (b.centerY - a.centerY)) ≥
    1.8 * a.radius + 1.8 * b.radius + 50

/-- Random source exhibiting two accepted islands that violate the claimed
symmetric `1.8 ×` spacing bound (values chosen per draw seed; all lie in
`[0, 1)`, as the random-source contract requires). -/
noncomputable def cexRand : ℝ → ℝ → ℝ → ℝ := fun _ _ s =>
  if s = 100 then 1/2 else if s = 10 then 4/5 else 0

/-- Concrete island used to instantiate the patch-clearance theorem. -/
def wIsland : Island := ⟨⟨['w']⟩, 1000, 0, 80, []⟩

/-- Cloud spacing from the claim: any two accepted clouds keep center
distance at least the sum of their radii (each scaled by the global
`CLOUD_SIZE` multiplier) plus a 150 px buffer. -/
def cloudPairSpaced (a b : CloudFormation) : Prop :=
  Real.sqrt ((b.centerX - a.centerX) * (b.centerX - a.centerX) +
      (b.centerY - a.centerY) * (b.centerY - a.centerY)) ≥
    a.radius * CLOUD_SIZE + b.radius * CLOUD_SIZE + 150

/-- Invariant of every reachable cache state: keys are pairwise distinct,
each entry is keyed by its chunk's own coordinates, and each stored chunk
is exactly the generated chunk of those coordinates. -/
def ChunkCache.WF (rand : ℝ → ℝ → ℝ → ℝ) (st : ChunkCache) : Prop :=
  (st.cache.map Prod.fst).Nodup ∧
    ∀ p ∈ st.cache, p.1 = getKey p.2.chunkX p.2.chunkY ∧
      p.2 = generateChunk rand p.2.chunkX p.2.chunkY st.seed st.assets

/-- Cache states reachable through the public `ChunkCache` interface. -/
inductive ChunkCache.Reachable (rand : ℝ → ℝ → ℝ → ℝ) : ChunkCache → Prop where
  | init (seed : ℝ) (assets : AssetDictionary) :
      ChunkCache.Reachable rand (ChunkCache.init seed assets)
  | get {st : ChunkCache} (x y : ℤ) (h : ChunkCache.Reachable rand st) :
      ChunkCache.Reachable rand (ChunkCache.getChunk rand st x y).2
  | getRadius {st : ChunkCache} (cx cy r : ℤ) (h : ChunkCache.Reachable rand st) :
      ChunkCache.Reachable rand (ChunkCache.getChunksInRadius rand st cx cy r).2
  | clean {st : ChunkCache} (cx cy kr : ℤ) (h : ChunkCache.Reachable rand st) :
      ChunkCache.Reachable rand (ChunkCache.cleanup st cx cy kr)

/-- Concrete one-entry cache used to instantiate the eviction theorem: the
chunk at `(5, 0)` fetched into a fresh cache. -/
noncomputable def w8State : ChunkCache :=
  (ChunkCache.getChunk constZeroRand (ChunkCache.init 0 sampleAssets) 5 0).2

/-- Decimal value of a digit list (left fold, most significant first). -/
def natVal (l : List Char) : ℕ :=
  l.foldl (fun a c => 10 * a + (c.toNat - 48)) 0

/-- The random-source contract: `seededRandom` lands in `[0, 1)`. -/
theorem seededRandom_mem_Ico (x y seed : ℝ) :
    0 ≤ seededRandom x y seed ∧ seededRandom x y seed < 1 := by
  unfold seededRandom
  exact ⟨Int.fract_nonneg _, Int.fract_lt_one _⟩

/-! Projection lemmas: the records built by `buildIsland`,
`buildCloudFormation` and `generateChunk` carry their arguments through
unchanged. -/

@[simp] lemma buildIsland_centerX (rand : ℝ → ℝ → ℝ → ℝ) (id : String)
    (cX cY : ℝ) (br : ℤ) (sh : IslandShape) (sd : ℝ) (a : AssetDictionary) :
    (buildIsland rand id cX cY br sh sd a).centerX = cX := rfl

@[simp] lemma buildIsland_centerY (rand : ℝ → ℝ → ℝ → ℝ) (id : String)
    (cX cY : ℝ) (br : ℤ) (sh : IslandShape) (sd : ℝ) (a : AssetDictionary) :
    (buildIsland rand id cX cY br sh sd a).centerY = cY := rfl

@[simp] lemma buildIsland_radius (rand : ℝ → ℝ → ℝ → ℝ) (id : String)
    (cX cY : ℝ) (br : ℤ) (sh : IslandShape) (sd : ℝ) (a : AssetDictionary) :
    (buildIsland rand id cX cY br sh sd a).radius = (br : ℝ) * TILE_SIZE := rfl

@[simp] lemma buildCloudFormation_centerX (rand : ℝ → ℝ → ℝ → ℝ) (id : String)
    (cX cY r sd : ℝ) (a : AssetDictionary) :
    (buildCloudFormation rand id cX cY r sd a).centerX = cX := rfl

@[simp] lemma buildCloudFormation_centerY (rand : ℝ → ℝ → ℝ → ℝ) (id : String)
    (cX cY r sd : ℝ) (a : AssetDictionary) :
    (buildCloudFormation rand id cX cY r sd a).centerY = cY := rfl

@[simp] lemma buildCloudFormation_radius (rand : ℝ → ℝ → ℝ → ℝ) (id : String)
    (cX cY r sd : ℝ) (a : AssetDictionary) :
    (buildCloudFormation rand id cX cY r sd a).radius = r := rfl

@[simp] lemma generateChunk_chunkX (rand : ℝ → ℝ → ℝ → ℝ) (x y : ℤ) (s : ℝ)
    (a : AssetDictionary) : (generateChunk rand x y s a).chunkX = x := rfl

@[simp] lemma generateChunk_chunkY (rand : ℝ → ℝ → ℝ → ℝ) (x y : ℤ) (s : ℝ)
    (a : AssetDictionary) : (generateChunk rand x y s a).chunkY = y := rfl

lemma generateChunk_islands (rand : ℝ → ℝ → ℝ → ℝ) (x y : ℤ) (s : ℝ)
    (a : AssetDictionary) :
    (generateChunk rand x y s a).islands = generateIslandsForChunk rand x y s a := rfl

lemma constZeroRand_mem_Ico (x y s : ℝ) :
    0 ≤ constZeroRand x y s ∧ constZeroRand x y s < 1 := by
  unfold constZeroRand
  norm_num

/-- C1.  Chunk generation is a pure function of the random source, the
coordinates and the seed: two invocations of `generateChunk` (with the
source's `seededRandom`) agree on island count, island records (tile lists
included), cloud records, and deep-ocean patch points. -/
theorem generateChunk_pure_deterministic (chunkX chunkY : ℤ) (seed : ℝ)
    (assets : AssetDictionary) (c1 c2 : Chunk)
    (h1 : c1 = generateChunk seededRandom chunkX chunkY seed assets)
    (h2 : c2 = generateChunk seededRandom chunkX chunkY seed assets) :
    c1.islands.length = c2.islands.length ∧ c1.islands = c2.islands ∧
      c1.clouds = c2.clouds ∧ c1.deepOceanPatches = c2.deepOceanPatches := by
  subst h1 h2
  exact ⟨rfl, rfl, rfl, rfl⟩

/-- Witness for C1 at chunk `(0, 0)`, seed `42`. -/
theorem generateChunk_pure_deterministic_witness :
    (generateChunk seededRandom 0 0 42 sampleAssets).islands.length =
        (generateChunk seededRandom 0 0 42 sampleAssets).islands.length ∧
      (generateChunk seededRandom 0 0 42 sampleAssets).islands =
        (generateChunk seededRandom 0 0 42 sampleAssets).islands ∧
      (generateChunk seededRandom 0 0 42 sampleAssets).clouds =
        (generateChunk seededRandom 0 0 42 sampleAssets).clouds ∧
      (generateChunk seededRandom 0 0 42 sampleAssets).deepOceanPatches =
        (generateChunk seededRandom 0 0 42 sampleAssets).deepOceanPatches :=
  generateChunk_pure_deterministic 0 0 42 sampleAssets _ _ rfl rfl

lemma islandStep_pairwise (rand : ℝ → ℝ → ℝ → ℝ) (chunkX chunkY : ℤ) (seed : ℝ)
    (assets : AssetDictionary) (islands : List Island) (i : ℕ)
    (h : islands.Pairwise islandPairSpacedCode) :
    (islandStep rand chunkX chunkY seed assets islands i).Pairwise islandPairSpacedCode := by
  unfold islandStep
  by_cases hov : wouldOverlap islands (islandCenterX rand chunkX chunkY seed i)
    (islandCenterY rand chunkX chunkY seed i) (islandEstimatedRadius rand chunkX chunkY seed i)
  · rw [if_pos hov]
    exact h
  · rw [if_neg hov]
    rw [List.pairwise_append]
    refine ⟨h, List.pairwise_singleton _ _, ?_⟩
    intro a ha b hb
    rw [List.mem_singleton] at hb
    subst hb
    unfold wouldOverlap at hov
    push_neg at hov
    have := hov a ha
    unfold islandPairSpacedCode
    simp only [buildIsland_centerX, buildIsland_centerY, buildIsland_radius]
    unfold islandEstimatedRadius at this
    linarith [this]

/-- C2 (amended).  For every random source, every pair of accepted islands
in a chunk, listed in acceptance order `a` before `b`, satisfies
center-to-center distance `≥ 1.8 * b.radius + a.radius + 50`: the `1.8`
estimate is applied to the later candidate only. -/
theorem island_spacing_amended (rand : ℝ → ℝ → ℝ → ℝ) (chunkX chunkY : ℤ)
    (seed : ℝ) (assets : AssetDictionary) :
    (generateIslandsForChunk rand chunkX chunkY seed assets).Pairwise islandPairSpacedCode := by
  have fold : ∀ (l : List ℕ) (acc : List Island), acc.Pairwise islandPairSpacedCode →
      (l.foldl (islandStep rand chunkX chunkY seed assets) acc).Pairwise islandPairSpacedCode := by
    intro l
    induction l with
    | nil => intro acc h; exact h
    | cons j l ih =>
      intro acc h
      exact ih _ (islandStep_pairwise rand chunkX chunkY seed assets acc j h)
  unfold generateIslandsForChunk
  by_cases hocc : rand (chunkX : ℝ) (chunkY : ℝ) seed < 0.3
  · rw [if_pos hocc]
    exact fold _ _ List.Pairwise.nil
  · rw [if_neg hocc]
    exact List.Pairwise.nil

lemma cexRand_mem_Ico (x y s : ℝ) : 0 ≤ cexRand x y s ∧ cexRand x y s < 1 := by
  unfold cexRand
  by_cases h1 : s = 100
  · rw [if_pos h1]
    norm_num
  · rw [if_neg h1]
    by_cases h2 : s = 10
    · rw [if_pos h2]
      norm_num
    · rw [if_neg h2]
      norm_num

lemma cexRand_one_half (x y : ℝ) : cexRand x y 100 = 1/2 := by
  unfold cexRand
  norm_num

lemma cexRand_four_fifths (x y : ℝ) : cexRand x y 10 = 4/5 := by
  unfold cexRand
  norm_num

lemma cexRand_zero (x y s : ℝ) (h1 : s ≠ 100) (h2 : s ≠ 10) : cexRand x y s = 0 := by
  unfold cexRand
  rw [if_neg h1, if_neg h2]

lemma cex_count : islandCount cexRand 0 0 0 = 2 := by
  unfold islandCount
  norm_num [cexRand_one_half]
  rfl

lemma cex_c0x : islandCenterX cexRand 0 0 0 0 = 128 := by
  unfold islandCenterX islandOffsetX
  rw [show ((0 : ℝ) + ((0 : ℕ) : ℝ) * 10) = 0 by norm_num]
  rw [cexRand_zero _ _ 0 (by norm_num) (by norm_num)]
  norm_num [CHUNK_SIZE, TILE_SIZE, SPRITE_TILE_SIZE, GAME_SCALE]

lemma cex_c0y : islandCenterY cexRand 0 0 0 0 = 128 := by
  unfold islandCenterY islandOffsetY
  rw [show ((0 : ℝ) + ((0 : ℕ) : ℝ) * 10 + 1) = 1 by norm_num]
  rw [cexRand_zero _ _ 1 (by norm_num) (by norm_num)]
  norm_num [CHUNK_SIZE, TILE_SIZE, SPRITE_TILE_SIZE, GAME_SCALE]

lemma cex_r0 : islandBaseRadius cexRand 0 0 0 0 = 8 := by
  unfold islandBaseRadius
  rw [show ((0 : ℝ) + ((0 : ℕ) : ℝ) * 10 + 2) = 2 by norm_num]
  rw [cexRand_zero _ _ 2 (by norm_num) (by norm_num)]
  norm_num

lemma cex_shape0 : islandShape cexRand 0 0 0 0 = IslandShape.circle := by
  unfold islandShape islandShapeType
  rw [show ((0 : ℝ) + ((0 : ℕ) : ℝ) * 10 + 3) = 3 by norm_num]
  rw [cexRand_zero _ _ 3 (by norm_num) (by norm_num)]
  norm_num

lemma cex_c1x : islandCenterX cexRand 0 0 0 1 = 435.2 := by
  unfold islandCenterX islandOffsetX
  rw [show ((0 : ℝ) + ((1 : ℕ) : ℝ) * 10) = 10 by norm_num]
  rw [cexRand_four_fifths]
  norm_num [CHUNK_SIZE, TILE_SIZE, SPRITE_TILE_SIZE, GAME_SCALE]

lemma cex_c1y : islandCenterY cexRand 0 0 0 1 = 128 := by
  unfold islandCenterY islandOffsetY
  rw [show ((0 : ℝ) + ((1 : ℕ) : ℝ) * 10 + 1) = 11 by norm_num]
  rw [cexRand_zero _ _ 11 (by norm_num) (by norm_num)]
  norm_num [CHUNK_SIZE, TILE_SIZE, SPRITE_TILE_SIZE, GAME_SCALE]

lemma cex_r1 : islandBaseRadius cexRand 0 0 0 1 = 8 := by
  unfold islandBaseRadius
  rw [show ((0 : ℝ) + ((1 : ℕ) : ℝ) * 10 + 2) = 12 by norm_num]
  rw [cexRand_zero _ _ 12 (by norm_num) (by norm_num)]
  norm_num

lemma cex_shape1 : islandShape cexRand 0 0 0 1 = IslandShape.circle := by
  unfold islandShape islandShapeType
  rw [show ((0 : ℝ) + ((1 : ℕ) : ℝ) * 10 + 3) = 13 by norm_num]
  rw [cexRand_zero _ _ 13 (by norm_num) (by norm_num)]
  norm_num

lemma cex_est1 : islandEstimatedRadius cexRand 0 0 0 1 = 144 := by
  unfold islandEstimatedRadius
  rw [cex_r1]
  norm_num [TILE_SIZE, SPRITE_TILE_SIZE, GAME_SCALE]

lemma cex_islands_eq :
    generateIslandsForChunk cexRand 0 0 0 sampleAssets =
      [buildIsland cexRand (islandId 0 0 0) 128 128 8 IslandShape.circle 0 sampleAssets,
        buildIsland cexRand (islandId 0 0 1) 435.2 128 8 IslandShape.circle 100 sampleAssets] := by
  unfold generateIslandsForChunk
  rw [if_pos (by rw [cexRand_zero _ _ 0 (by norm_num) (by norm_num)]; norm_num)]
  rw [cex_count]
  rw [show List.range 2 = [0, 1] from rfl]
  rw [List.foldl_cons, List.foldl_cons, List.foldl_nil]
  have step0 : islandStep cexRand 0 0 0 sampleAssets [] 0 =
      [buildIsland cexRand (islandId 0 0 0) 128 128 8 IslandShape.circle 0 sampleAssets] := by
    unfold islandStep
    rw [if_neg (by unfold wouldOverlap; simp)]
    rw [cex_c0x, cex_c0y, cex_r0, cex_shape0]
    norm_num
  rw [step0]
  unfold islandStep
  rw [cex_c1x, cex_c1y, cex_est1, cex_r1, cex_shape1]
  rw [if_neg ?_]
  · norm_num
  · unfold wouldOverlap
    simp only [List.mem_singleton, exists_eq_left, buildIsland_centerX, buildIsland_centerY,
      buildIsland_radius]
    rw [show ((435.2 : ℝ) - 128) * (435.2 - 128) + (128 - 128) * (128 - 128) =
      307.2 ^ 2 by norm_num]
    rw [Real.sqrt_sq (by norm_num)]
    norm_num [TILE_SIZE, SPRITE_TILE_SIZE, GAME_SCALE]

/-- C2 counterexample.  In the chunk generated at `(0, 0)` with seed `0`
from the (contract-satisfying) random source `cexRand`, the two accepted
islands are `307.2` px apart, which the code's asymmetric check allows
(`1.8·80 + 80 + 50 = 274 ≤ 307.2`) but the claimed symmetric bound forbids
(`1.8·80 + 1.8·80 + 50 = 338 > 307.2`). -/
theorem island_spacing_claim_counterexample :
    ¬ (generateIslandsForChunk cexRand 0 0 0 sampleAssets).Pairwise islandPairSpacedClaim := by
  rw [cex_islands_eq]
  intro h
  have hpair := (List.pairwise_cons.mp h).1 _ (List.mem_singleton_self _)
  unfold islandPairSpacedClaim at hpair
  simp only [buildIsland_centerX, buildIsland_centerY, buildIsland_radius] at hpair
  rw [show ((435.2 : ℝ) - 128) * (435.2 - 128) + (128 - 128) * (128 - 128) =
    307.2 ^ 2 by norm_num] at hpair
  rw [Real.sqrt_sq (by norm_num)] at hpair
  norm_num [TILE_SIZE, SPRITE_TILE_SIZE, GAME_SCALE] at hpair

lemma deepOceanAcceptedCenters_far (rand : ℝ → ℝ → ℝ → ℝ) (chunkX chunkY : ℤ)
    (seed : ℝ) (islands : List Island) (c : ℝ × ℝ)
    (hc : c ∈ deepOceanAcceptedCenters rand chunkX chunkY seed islands) :
    patchFarFromIslands islands c.1 c.2 := by
  unfold deepOceanAcceptedCenters at hc
  revert hc
  generalize List.range (patchCount rand chunkX chunkY seed).toNat = l
  have fold : ∀ (l : List ℕ) (acc : List (ℝ × ℝ)),
      (∀ d ∈ acc, patchFarFromIslands islands d.1 d.2) →
      ∀ d ∈ l.foldl (fun acc i =>
        if patchFarFromIslands islands (patchGlobalX rand chunkX chunkY seed i)
            (patchGlobalY rand chunkX chunkY seed i) then
          acc ++ [(patchGlobalX rand chunkX chunkY seed i, patchGlobalY rand chunkX chunkY seed i)]
        else acc) acc,
        patchFarFromIslands islands d.1 d.2 := by
    intro l
    induction l with
    | nil => intro acc h; exact h
    | cons j l ih =>
      intro acc h
      apply ih
      show ∀ d ∈ (if patchFarFromIslands islands (patchGlobalX rand chunkX chunkY seed j)
          (patchGlobalY rand chunkX chunkY seed j) then
            acc ++ [(patchGlobalX rand chunkX chunkY seed j, patchGlobalY rand chunkX chunkY seed j)]
          else acc),
        patchFarFromIslands islands d.1 d.2
      by_cases hj : patchFarFromIslands islands (patchGlobalX rand chunkX chunkY seed j)
        (patchGlobalY rand chunkX chunkY seed j)
      · rw [if_pos hj]
        intro d hd
        rcases List.mem_append.mp hd with hd | hd
        · exact h d hd
        · rw [List.mem_singleton] at hd
          subst hd
          exact hj
      · rw [if_neg hj]
        exact h
  intro hc
  exact fold l [] (by intro d hd; cases hd) c hc

/-- C3.  Every accepted deep-ocean patch center is strictly farther than
`island.radius + 100` pixels from the center of every island of its chunk
(candidates failing the test are dropped without retry). -/
theorem deep_ocean_patch_clearance (rand : ℝ → ℝ → ℝ → ℝ) (chunkX chunkY : ℤ)
    (seed : ℝ) (islands : List Island) (c : ℝ × ℝ)
    (hc : c ∈ deepOceanAcceptedCenters rand chunkX chunkY seed islands)
    (island : Island) (hisl : island ∈ islands) :
    Real.sqrt ((c.1 - island.centerX) * (c.1 - island.centerX) +
        (c.2 - island.centerY) * (c.2 - island.centerY)) >
      island.radius + 100 :=
  deepOceanAcceptedCenters_far rand chunkX chunkY seed islands c hc island hisl

lemma w_patchGlobalX (i : ℕ) : patchGlobalX constZeroRand 0 0 0 i = 0 := by
  unfold patchGlobalX patchCenterX constZeroRand
  norm_num

lemma w_patchGlobalY (i : ℕ) : patchGlobalY constZeroRand 0 0 0 i = 0 := by
  unfold patchGlobalY patchCenterY constZeroRand
  norm_num

lemma w_far : patchFarFromIslands [wIsland] 0 0 := by
  unfold patchFarFromIslands
  intro island hmem
  rw [List.mem_singleton] at hmem
  subst hmem
  unfold wIsland
  rw [show ((0 : ℝ) - 1000) * (0 - 1000) + (0 - 0) * (0 - 0) = 1000 ^ 2 by norm_num]
  rw [Real.sqrt_sq (by norm_num)]
  norm_num

lemma w_centers :
    ((0 : ℝ), (0 : ℝ)) ∈ deepOceanAcceptedCenters constZeroRand 0 0 0 [wIsland] := by
  unfold deepOceanAcceptedCenters
  rw [show (patchCount constZeroRand 0 0 0).toNat = 3 by
    unfold patchCount constZeroRand; norm_num; rfl]
  rw [show List.range 3 = [0, 1, 2] from rfl]
  rw [List.foldl_cons, List.foldl_cons, List.foldl_cons, List.foldl_nil]
  rw [w_patchGlobalX, w_patchGlobalY, if_pos w_far]
  rw [w_patchGlobalX, w_patchGlobalY, if_pos w_far]
  rw [w_patchGlobalX, w_patchGlobalY, if_pos w_far]
  simp

/-- Witness for C3: the accepted center `(0,0)` of the zero random source
clears the island at `(1000, 0)` with radius `80`. -/
theorem deep_ocean_patch_clearance_witness :
    Real.sqrt ((((0 : ℝ), (0 : ℝ)).1 - wIsland.centerX) *
          (((0 : ℝ), (0 : ℝ)).1 - wIsland.centerX) +
        (((0 : ℝ), (0 : ℝ)).2 - wIsland.centerY) *
          (((0 : ℝ), (0 : ℝ)).2 - wIsland.centerY)) >
      wIsland.radius + 100 :=
  deep_ocean_patch_clearance constZeroRand 0 0 0 [wIsland] (0, 0) w_centers
    wIsland (List.mem_singleton_self _)

lemma cloudPlaceLoop_spec (rand : ℝ → ℝ → ℝ → ℝ) (clouds : List CloudFormation)
    (chunkX chunkY : ℤ) (seed : ℝ) (i : ℕ) :
    ∀ (n attempts : ℕ), 10 - attempts ≤ n →
      (checkOverlap clouds (cloudPlaceLoop rand clouds chunkX chunkY seed i attempts).1.1
          (cloudPlaceLoop rand clouds chunkX chunkY seed i attempts).1.2.1
          (cloudPlaceLoop rand clouds chunkX chunkY seed i attempts).1.2.2 →
        (cloudPlaceLoop rand clouds chunkX chunkY seed i attempts).2 ≥ 10) ∧
      (cloudPlaceLoop rand clouds chunkX chunkY seed i attempts).2 ≤ max 10 (attempts + 1) := by
  intro n
  induction n with
  | zero =>
    intro attempts hn
    rw [cloudPlaceLoop]
    have hbig : ¬ (attempts + 1 < 10) := by omega
    rw [dif_neg (by intro hcon; exact hbig hcon.2)]
    exact ⟨fun _ => by omega, by omega⟩
  | succ n ih =>
    intro attempts hn
    rw [cloudPlaceLoop]
    by_cases hcond : checkOverlap clouds
        (cloudDrawX rand chunkX chunkY seed i attempts)
        (cloudDrawY rand chunkX chunkY seed i attempts)
        (cloudDrawRadius rand chunkX chunkY seed i attempts) ∧ attempts + 1 < 10
    · rw [dif_pos hcond]
      have hrec := ih (attempts + 1) (by omega)
      exact ⟨hrec.1, by omega⟩
    · rw [dif_neg hcond]
      refine ⟨fun hov => ?_, by omega⟩
      by_contra hlt
      exact hcond ⟨hov, by omega⟩

lemma cloudSlotStep_pairwise (rand : ℝ → ℝ → ℝ → ℝ) (chunkX chunkY : ℤ) (seed : ℝ)
    (assets : AssetDictionary) (clouds : List CloudFormation) (i : ℕ)
    (h : clouds.Pairwise cloudPairSpaced) :
    (cloudSlotStep rand chunkX chunkY seed assets clouds i).Pairwise cloudPairSpaced := by
  simp only [cloudSlotStep]
  by_cases hskip : (cloudPlaceLoop rand clouds chunkX chunkY seed i 0).2 ≥ 10 ∧
      checkOverlap clouds (cloudPlaceLoop rand clouds chunkX chunkY seed i 0).1.1
        (cloudPlaceLoop rand clouds chunkX chunkY seed i 0).1.2.1
        (cloudPlaceLoop rand clouds chunkX chunkY seed i 0).1.2.2
  · rw [if_pos hskip]
    exact h
  · rw [if_neg hskip]
    have hov : ¬ checkOverlap clouds (cloudPlaceLoop rand clouds chunkX chunkY seed i 0).1.1
        (cloudPlaceLoop rand clouds chunkX chunkY seed i 0).1.2.1
        (cloudPlaceLoop rand clouds chunkX chunkY seed i 0).1.2.2 := by
      intro hover
      exact hskip ⟨(cloudPlaceLoop_spec rand clouds chunkX chunkY seed i 10 0
        (by omega)).1 hover, hover⟩
    rw [List.pairwise_append]
    refine ⟨h, List.pairwise_singleton _ _, ?_⟩
    intro a ha b hb
    rw [List.mem_singleton] at hb
    subst hb
    unfold checkOverlap at hov
    push_neg at hov
    have hfar := hov a ha
    unfold cloudPairSpaced
    simp only [buildCloudFormation_centerX, buildCloudFormation_centerY,
      buildCloudFormation_radius]
    rw [show CLOUD_SIZE = 1 from rfl] at hfar ⊢
    linarith [hfar]

/-- C4.  Accepted clouds of a chunk are pairwise non-overlapping — center
distance at least `radius1 * CLOUD_SIZE + radius2 * CLOUD_SIZE + 150` —
and the placement loop of a cloud slot makes at most 10 draws before the
slot is dropped. -/
theorem cloud_spacing_and_attempt_bound (rand : ℝ → ℝ → ℝ → ℝ) (chunkX chunkY : ℤ)
    (seed : ℝ) (islands : List Island) (assets : AssetDictionary)
    (clouds : List CloudFormation) (i : ℕ) :
    (generateCloudsForChunk rand chunkX chunkY seed islands assets).Pairwise cloudPairSpaced ∧
      (cloudPlaceLoop rand clouds chunkX chunkY seed i 0).2 ≤ 10 := by
  constructor
  · have fold : ∀ (l : List ℕ) (acc : List CloudFormation), acc.Pairwise cloudPairSpaced →
        (l.foldl (cloudSlotStep rand chunkX chunkY seed assets) acc).Pairwise cloudPairSpaced := by
      intro l
      induction l with
      | nil => intro acc h; exact h
      | cons j l ih =>
        intro acc h
        exact ih _ (cloudSlotStep_pairwise rand chunkX chunkY seed assets acc j h)
    exact fold _ _ List.Pairwise.nil
  · have := (cloudPlaceLoop_spec rand clouds chunkX chunkY seed i 10 0 (by omega)).2
    omega

/-- C5.  Every island candidate drawn by the shape synthesizer has base
radius between 8 and 18 tiles and its center between 0.2 and 0.8 of the
chunk extent on each axis (tile units, and the pixel conversion). -/
theorem island_candidate_bounds (rand : ℝ → ℝ → ℝ → ℝ)
    (hr : ∀ x y s, 0 ≤ rand x y s ∧ rand x y s < 1)
    (chunkX chunkY : ℤ) (seed : ℝ) (i : ℕ) :
    (8 ≤ islandBaseRadius rand chunkX chunkY seed i ∧
        islandBaseRadius rand chunkX chunkY seed i ≤ 18) ∧
      (CHUNK_SIZE * 0.2 ≤ islandOffsetX rand chunkX chunkY seed i ∧
        islandOffsetX rand chunkX chunkY seed i ≤ CHUNK_SIZE * 0.8) ∧
      (CHUNK_SIZE * 0.2 ≤ islandOffsetY rand chunkX chunkY seed i ∧
        islandOffsetY rand chunkX chunkY seed i ≤ CHUNK_SIZE * 0.8) ∧
      (((chunkX : ℝ) * CHUNK_SIZE + CHUNK_SIZE * 0.2) * TILE_SIZE ≤
          islandCenterX rand chunkX chunkY seed i ∧
        islandCenterX rand chunkX chunkY seed i ≤
          ((chunkX : ℝ) * CHUNK_SIZE + CHUNK_SIZE * 0.8) * TILE_SIZE) ∧
      (((chunkY : ℝ) * CHUNK_SIZE + CHUNK_SIZE * 0.2) * TILE_SIZE ≤
          islandCenterY rand chunkX chunkY seed i ∧
        islandCenterY rand chunkX chunkY seed i ≤
          ((chunkY : ℝ) * CHUNK_SIZE + CHUNK_SIZE * 0.8) * TILE_SIZE) := by
  obtain ⟨h0x, h1x⟩ := hr (chunkX : ℝ) (chunkY : ℝ) (seed + (i : ℝ) * 10)
  obtain ⟨h0y, h1y⟩ := hr (chunkX : ℝ) (chunkY : ℝ) (seed + (i : ℝ) * 10 + 1)
  obtain ⟨h0r, h1r⟩ := hr (chunkX : ℝ) (chunkY : ℝ) (seed + (i : ℝ) * 10 + 2)
  have hfl0 : (0 : ℤ) ≤ ⌊rand (chunkX : ℝ) (chunkY : ℝ) (seed + (i : ℝ) * 10 + 2) * 10⌋ :=
    Int.floor_nonneg.mpr (mul_nonneg h0r (by norm_num))
  have hfl1 : ⌊rand (chunkX : ℝ) (chunkY : ℝ) (seed + (i : ℝ) * 10 + 2) * 10⌋ < 10 :=
    Int.floor_lt.mpr (by push_cast; nlinarith)
  refine ⟨⟨?_, ?_⟩, ⟨?_, ?_⟩, ⟨?_, ?_⟩, ⟨?_, ?_⟩, ⟨?_, ?_⟩⟩
  · unfold islandBaseRadius; omega
  · unfold islandBaseRadius; omega
  · unfold islandOffsetX CHUNK_SIZE; nlinarith
  · unfold islandOffsetX CHUNK_SIZE; nlinarith
  · unfold islandOffsetY CHUNK_SIZE; nlinarith
  · unfold islandOffsetY CHUNK_SIZE; nlinarith
  · unfold islandCenterX islandOffsetX CHUNK_SIZE TILE_SIZE SPRITE_TILE_SIZE GAME_SCALE
    nlinarith
  · unfold islandCenterX islandOffsetX CHUNK_SIZE TILE_SIZE SPRITE_TILE_SIZE GAME_SCALE
    nlinarith
  · unfold islandCenterY islandOffsetY CHUNK_SIZE TILE_SIZE SPRITE_TILE_SIZE GAME_SCALE
    nlinarith
  · unfold islandCenterY islandOffsetY CHUNK_SIZE TILE_SIZE SPRITE_TILE_SIZE GAME_SCALE
    nlinarith

/-- Witness for C5 at the zero random source, chunk `(0,0)`, seed `0`,
candidate `0`. -/
theorem island_candidate_bounds_witness :
    (8 ≤ islandBaseRadius constZeroRand 0 0 0 0 ∧
        islandBaseRadius constZeroRand 0 0 0 0 ≤ 18) ∧
      (CHUNK_SIZE * 0.2 ≤ islandOffsetX constZeroRand 0 0 0 0 ∧
        islandOffsetX constZeroRand 0 0 0 0 ≤ CHUNK_SIZE * 0.8) ∧
      (CHUNK_SIZE * 0.2 ≤ islandOffsetY constZeroRand 0 0 0 0 ∧
        islandOffsetY constZeroRand 0 0 0 0 ≤ CHUNK_SIZE * 0.8) ∧
      ((((0 : ℤ) : ℝ) * CHUNK_SIZE + CHUNK_SIZE * 0.2) * TILE_SIZE ≤
          islandCenterX constZeroRand 0 0 0 0 ∧
        islandCenterX constZeroRand 0 0 0 0 ≤
          (((0 : ℤ) : ℝ) * CHUNK_SIZE + CHUNK_SIZE * 0.8) * TILE_SIZE) ∧
      ((((0 : ℤ) : ℝ) * CHUNK_SIZE + CHUNK_SIZE * 0.2) * TILE_SIZE ≤
          islandCenterY constZeroRand 0 0 0 0 ∧
        islandCenterY constZeroRand 0 0 0 0 ≤
          (((0 : ℤ) : ℝ) * CHUNK_SIZE + CHUNK_SIZE * 0.8) * TILE_SIZE) :=
  island_candidate_bounds constZeroRand constZeroRand_mem_Ico 0 0 0 0

/-- C6.  The deep-water patch synthesizer draws between 3 and 8 candidate
clusters per chunk, each with a radius between 3 and 8 tiles. -/
theorem deep_ocean_candidate_bounds (rand : ℝ → ℝ → ℝ → ℝ)
    (hr : ∀ x y s, 0 ≤ rand x y s ∧ rand x y s < 1)
    (chunkX chunkY : ℤ) (seed : ℝ) (i : ℕ) :
    (3 ≤ patchCount rand chunkX chunkY seed ∧ patchCount rand chunkX chunkY seed ≤ 8) ∧
      (3 ≤ patchSize rand chunkX chunkY seed i ∧ patchSize rand chunkX chunkY seed i ≤ 8) := by
  obtain ⟨h0c, h1c⟩ := hr (chunkX : ℝ) (chunkY : ℝ) (seed + 9000)
  obtain ⟨h0s, h1s⟩ := hr (chunkX : ℝ) (chunkY : ℝ) (seed + 9000 + (i : ℝ) * 3 + 2)
  have hc0 : (0 : ℤ) ≤ ⌊rand (chunkX : ℝ) (chunkY : ℝ) (seed + 9000) * 6⌋ :=
    Int.floor_nonneg.mpr (mul_nonneg h0c (by norm_num))
  have hc1 : ⌊rand (chunkX : ℝ) (chunkY : ℝ) (seed + 9000) * 6⌋ < 6 :=
    Int.floor_lt.mpr (by push_cast; nlinarith)
  have hs0 : (0 : ℤ) ≤ ⌊rand (chunkX : ℝ) (chunkY : ℝ) (seed + 9000 + (i : ℝ) * 3 + 2) * 5⌋ :=
    Int.floor_nonneg.mpr (mul_nonneg h0s (by norm_num))
  have hs1 : ⌊rand (chunkX : ℝ) (chunkY : ℝ) (seed + 9000 + (i : ℝ) * 3 + 2) * 5⌋ < 5 :=
    Int.floor_lt.mpr (by push_cast; nlinarith)
  refine ⟨⟨?_, ?_⟩, ⟨?_, ?_⟩⟩
  · unfold patchCount; omega
  · unfold patchCount; omega
  · unfold patchSize; omega
  · unfold patchSize; omega

/-- Witness for C6 at the zero random source, chunk `(0,0)`, seed `0`,
candidate `0`. -/
theorem deep_ocean_candidate_bounds_witness :
    (3 ≤ patchCount constZeroRand 0 0 0 ∧ patchCount constZeroRand 0 0 0 ≤ 8) ∧
      (3 ≤ patchSize constZeroRand 0 0 0 0 ∧ patchSize constZeroRand 0 0 0 0 ≤ 8) :=
  deep_ocean_candidate_bounds constZeroRand constZeroRand_mem_Ico 0 0 0 0

/-! Cache-table lemmas. -/

@[simp] lemma cacheFind_nil (key : String) : cacheFind [] key = none := rfl

@[simp] lemma cacheFind_cons (k0 : String) (c0 : Chunk) (t : List (String × Chunk))
    (key : String) :
    cacheFind ((k0, c0) :: t) key = if k0 = key then some c0 else cacheFind t key := rfl

lemma cacheFind_append_some {l1 l2 : List (String × Chunk)} {k : String} {c : Chunk}
    (h : cacheFind l1 k = some c) : cacheFind (l1 ++ l2) k = some c := by
  induction l1 with
  | nil => cases h
  | cons p t ih =>
    obtain ⟨k0, c0⟩ := p
    rw [cacheFind_cons] at h
    show cacheFind ((k0, c0) :: (t ++ l2)) k = some c
    rw [cacheFind_cons]
    by_cases hk : k0 = k
    · rwa [if_pos hk] at h ⊢
    · rw [if_neg hk] at h ⊢
      exact ih h

lemma cacheFind_append_none {l1 : List (String × Chunk)} {k : String}
    (h : cacheFind l1 k = none) (l2 : List (String × Chunk)) :
    cacheFind (l1 ++ l2) k = cacheFind l2 k := by
  induction l1 with
  | nil => rfl
  | cons p t ih =>
    obtain ⟨k0, c0⟩ := p
    rw [cacheFind_cons] at h
    show cacheFind ((k0, c0) :: (t ++ l2)) k = cacheFind l2 k
    rw [cacheFind_cons]
    by_cases hk : k0 = k
    · rw [if_pos hk] at h
      cases h
    · rw [if_neg hk] at h ⊢
      exact ih h

lemma cacheFind_eq_none_iff {l : List (String × Chunk)} {k : String} :
    cacheFind l k = none ↔ ∀ p ∈ l, p.1 ≠ k := by
  induction l with
  | nil => simp
  | cons p t ih =>
    obtain ⟨k0, c0⟩ := p
    rw [cacheFind_cons]
    by_cases hk : k0 = k
    · subst hk
      simp [ih]
    · simp [hk, ih]

lemma cacheFind_mem {l : List (String × Chunk)} {k : String} {c : Chunk}
    (h : cacheFind l k = some c) : (k, c) ∈ l := by
  induction l with
  | nil => cases h
  | cons p t ih =>
    obtain ⟨k0, c0⟩ := p
    rw [cacheFind_cons] at h
    by_cases hk : k0 = k
    · rw [if_pos hk] at h
      subst hk
      cases h
      exact List.mem_cons_self _ _
    · rw [if_neg hk] at h
      exact List.mem_cons_of_mem _ (ih h)

lemma getChunk_of_find (rand : ℝ → ℝ → ℝ → ℝ) (st : ChunkCache) (x y : ℤ) {c : Chunk}
    (h : cacheFind st.cache (getKey x y) = some c) :
    ChunkCache.getChunk rand st x y = (c, st) := by
  simp only [ChunkCache.getChunk, h]

lemma getChunk_of_miss (rand : ℝ → ℝ → ℝ → ℝ) (st : ChunkCache) (x y : ℤ)
    (h : cacheFind st.cache (getKey x y) = none) :
    ChunkCache.getChunk rand st x y =
      (generateChunk rand x y st.seed st.assets,
        { st with cache := st.cache ++
            [(getKey x y, generateChunk rand x y st.seed st.assets)] }) := by
  simp only [ChunkCache.getChunk, h]

lemma getChunk_seed (rand : ℝ → ℝ → ℝ → ℝ) (st : ChunkCache) (x y : ℤ) :
    (ChunkCache.getChunk rand st x y).2.seed = st.seed := by
  rcases h : cacheFind st.cache (getKey x y) with _ | c
  · rw [getChunk_of_miss rand st x y h]
  · rw [getChunk_of_find rand st x y h]

lemma getChunk_assets (rand : ℝ → ℝ → ℝ → ℝ) (st : ChunkCache) (x y : ℤ) :
    (ChunkCache.getChunk rand st x y).2.assets = st.assets := by
  rcases h : cacheFind st.cache (getKey x y) with _ | c
  · rw [getChunk_of_miss rand st x y h]
  · rw [getChunk_of_find rand st x y h]

lemma getChunk_mono (rand : ℝ → ℝ → ℝ → ℝ) (st : ChunkCache) (x y : ℤ)
    {k : String} {c : Chunk} (h : cacheFind st.cache k = some c) :
    cacheFind (ChunkCache.getChunk rand st x y).2.cache k = some c := by
  rcases hf : cacheFind st.cache (getKey x y) with _ | c0
  · rw [getChunk_of_miss rand st x y hf]
    exact cacheFind_append_some h
  · rw [getChunk_of_find rand st x y hf]
    exact h

lemma getChunk_find_self (rand : ℝ → ℝ → ℝ → ℝ) (st : ChunkCache) (x y : ℤ) :
    cacheFind (ChunkCache.getChunk rand st x y).2.cache (getKey x y) =
      some (ChunkCache.getChunk rand st x y).1 := by
  rcases hf : cacheFind st.cache (getKey x y) with _ | c0
  · rw [getChunk_of_miss rand st x y hf]
    rw [cacheFind_append_none hf]
    simp
  · rw [getChunk_of_find rand st x y hf]
    exact hf

lemma getChunksList_cons (rand : ℝ → ℝ → ℝ → ℝ) (st : ChunkCache) (p : ℤ × ℤ)
    (ps : List (ℤ × ℤ)) :
    getChunksList rand st (p :: ps) =
      ((ChunkCache.getChunk rand st p.1 p.2).1 ::
          (getChunksList rand (ChunkCache.getChunk rand st p.1 p.2).2 ps).1,
        (getChunksList rand (ChunkCache.getChunk rand st p.1 p.2).2 ps).2) := by
  simp [getChunksList]

lemma foldl_emit_eq (rand : ℝ → ℝ → ℝ → ℝ) (ps : List (ℤ × ℤ)) :
    ∀ (b : List Chunk × ChunkCache),
      ps.foldl (fun b p =>
          let q := ChunkCache.getChunk rand b.2 p.1 p.2
          (b.1 ++ [q.1], q.2)) b =
        (b.1 ++ (getChunksList rand b.2 ps).1, (getChunksList rand b.2 ps).2) := by
  induction ps with
  | nil =>
    intro b
    simp [getChunksList]
  | cons p ps ih =>
    intro b
    rw [List.foldl_cons, ih]
    rw [getChunksList_cons]
    simp [List.append_assoc]

lemma getChunksList_append (rand : ℝ → ℝ → ℝ → ℝ) (l1 l2 : List (ℤ × ℤ)) :
    ∀ st : ChunkCache,
      getChunksList rand st (l1 ++ l2) =
        ((getChunksList rand st l1).1 ++
            (getChunksList rand (getChunksList rand st l1).2 l2).1,
          (getChunksList rand (getChunksList rand st l1).2 l2).2) := by
  induction l1 with
  | nil => intro st; simp [getChunksList]
  | cons p l1 ih =>
    intro st
    rw [List.cons_append, getChunksList_cons, getChunksList_cons, ih]
    simp [getChunksList_cons]

lemma getChunksList_mono (rand : ℝ → ℝ → ℝ → ℝ) (ps : List (ℤ × ℤ)) :
    ∀ (st : ChunkCache) {k : String} {c : Chunk}, cacheFind st.cache k = some c →
      cacheFind (getChunksList rand st ps).2.cache k = some c := by
  induction ps with
  | nil => intro st k c h; exact h
  | cons p ps ih =>
    intro st k c h
    rw [getChunksList_cons]
    exact ih _ (getChunk_mono rand st p.1 p.2 h)

lemma getChunksList_map (rand : ℝ → ℝ → ℝ → ℝ) (ps : List (ℤ × ℤ)) :
    ∀ st : ChunkCache,
      (getChunksList rand st ps).1 = ps.map (fun p =>
        (ChunkCache.getChunk rand (getChunksList rand st ps).2 p.1 p.2).1) := by
  induction ps with
  | nil => intro st; rfl
  | cons p ps ih =>
    intro st
    rw [getChunksList_cons, List.map_cons]
    refine congrArg₂ _ ?_ ?_
    · have hfind := getChunk_find_self rand st p.1 p.2
      have hfinal := getChunksList_mono rand ps (ChunkCache.getChunk rand st p.1 p.2).2 hfind
      rw [getChunk_of_find rand _ p.1 p.2 hfinal]
    · exact ih (ChunkCache.getChunk rand st p.1 p.2).2

lemma getChunksInRadius_eq_list (rand : ℝ → ℝ → ℝ → ℝ) (st : ChunkCache)
    (cx cy r : ℤ) :
    ChunkCache.getChunksInRadius rand st cx cy r =
      getChunksList rand st (squareCoords cx cy r) := by
  unfold ChunkCache.getChunksInRadius squareCoords
  generalize intRange (-r) r = ys
  suffices h : ∀ (l : List ℤ) (b : List Chunk × ChunkCache),
      l.foldl (fun acc dy => ys.foldl (fun acc2 dx =>
        let q := ChunkCache.getChunk rand acc2.2 (cx + dx) (cy + dy)
        (acc2.1 ++ [q.1], q.2)) acc) b =
      (b.1 ++ (getChunksList rand b.2
          (l.flatMap (fun dy => ys.map (fun dx => (cx + dx, cy + dy))))).1,
        (getChunksList rand b.2
          (l.flatMap (fun dy => ys.map (fun dx => (cx + dx, cy + dy))))).2) by
    rw [h ys ([], st)]
    simp
  intro l
  induction l with
  | nil =>
    intro b
    simp [getChunksList]
  | cons dy l ih =>
    intro b
    rw [List.foldl_cons]
    have hrow : ys.foldl (fun acc2 dx =>
        let q := ChunkCache.getChunk rand acc2.2 (cx + dx) (cy + dy)
        (acc2.1 ++ [q.1], q.2)) b =
        (b.1 ++ (getChunksList rand b.2 (ys.map (fun dx => (cx + dx, cy + dy)))).1,
          (getChunksList rand b.2 (ys.map (fun dx => (cx + dx, cy + dy)))).2) := by
      have h0 := foldl_emit_eq rand (ys.map (fun dx => (cx + dx, cy + dy))) b
      rw [List.foldl_map] at h0
      exact h0
    rw [hrow, ih, List.flatMap_cons, getChunksList_append]
    simp [List.append_assoc]

lemma intRange_length (a b : ℤ) : (intRange a b).length = (b + 1 - a).toNat := by
  unfold intRange
  rw [List.length_map, List.length_range]

lemma mem_intRange {a b z : ℤ} : z ∈ intRange a b ↔ a ≤ z ∧ z ≤ b := by
  unfold intRange
  rw [List.mem_map]
  constructor
  · rintro ⟨k, hk, rfl⟩
    rw [List.mem_range] at hk
    omega
  · rintro ⟨h1, h2⟩
    refine ⟨(z - a).toNat, ?_, by omega⟩
    rw [List.mem_range]
    omega

lemma squareCoords_length (cx cy r : ℤ) :
    (squareCoords cx cy r).length = (2 * r + 1).toNat * (2 * r + 1).toNat := by
  unfold squareCoords
  have hlen : ∀ (l : List ℤ),
      (l.flatMap (fun dy => (intRange (-r) r).map (fun dx => (cx + dx, cy + dy)))).length =
        l.length * (2 * r + 1).toNat := by
    intro l
    induction l with
    | nil => simp
    | cons dy l ih =>
      rw [List.flatMap_cons, List.length_append, ih, List.length_map, intRange_length,
        List.length_cons]
      have : (r + 1 - -r).toNat = (2 * r + 1).toNat := by omega
      rw [this]
      ring
  rw [hlen, intRange_length]
  have : (r + 1 - -r).toNat = (2 * r + 1).toNat := by omega
  rw [this]

lemma mem_squareCoords {cx cy r x y : ℤ} :
    (x, y) ∈ squareCoords cx cy r ↔
      cx - r ≤ x ∧ x ≤ cx + r ∧ cy - r ≤ y ∧ y ≤ cy + r := by
  unfold squareCoords
  simp only [List.mem_flatMap, List.mem_map, mem_intRange, Prod.mk.injEq]
  constructor
  · rintro ⟨dy, ⟨hdy1, hdy2⟩, dx, ⟨hdx1, hdx2⟩, hx, hy⟩
    omega
  · rintro ⟨h1, h2, h3, h4⟩
    exact ⟨y - cy, by omega, x - cx, by omega, by omega, by omega⟩

/-- C7.  For `radius ≥ 0`, `getChunksInRadius(cx, cy, radius)` returns
exactly `(2*radius+1)^2` chunks — the map of `getChunk` (in the resulting
cache state) over the inclusive coordinate square, which contains every
coordinate of `[cx-r, cx+r] × [cy-r, cy+r]`. -/
theorem getChunksInRadius_complete (rand : ℝ → ℝ → ℝ → ℝ) (st : ChunkCache)
    (cx cy r : ℤ) (hr : 0 ≤ r) :
    (((ChunkCache.getChunksInRadius rand st cx cy r).1.length : ℤ) = (2 * r + 1) ^ 2) ∧
      ((ChunkCache.getChunksInRadius rand st cx cy r).1 =
        (squareCoords cx cy r).map (fun p =>
          (ChunkCache.getChunk rand (ChunkCache.getChunksInRadius rand st cx cy r).2
            p.1 p.2).1)) ∧
      (∀ x y : ℤ, cx - r ≤ x → x ≤ cx + r → cy - r ≤ y → y ≤ cy + r →
        (x, y) ∈ squareCoords cx cy r) := by
  rw [getChunksInRadius_eq_list]
  refine ⟨?_, ?_, ?_⟩
  · rw [getChunksList_map rand _ st, List.length_map, squareCoords_length]
    push_cast
    have : ((2 * r + 1).toNat : ℤ) = 2 * r + 1 := by omega
    rw [this]
    ring
  · exact getChunksList_map rand _ st
  · intro x y h1 h2 h3 h4
    exact mem_squareCoords.mpr ⟨h1, h2, h3, h4⟩

/-- Witness for C7: `getChunksInRadius(0, 0, 2)` on a fresh cache returns
exactly 25 chunks. -/
theorem getChunksInRadius_complete_witness :
    (((ChunkCache.getChunksInRadius constZeroRand (ChunkCache.init 0 sampleAssets)
          0 0 2).1.length : ℤ) = (2 * 2 + 1) ^ 2) ∧
      ((ChunkCache.getChunksInRadius constZeroRand (ChunkCache.init 0 sampleAssets)
          0 0 2).1 =
        (squareCoords 0 0 2).map (fun p =>
          (ChunkCache.getChunk constZeroRand
            (ChunkCache.getChunksInRadius constZeroRand (ChunkCache.init 0 sampleAssets)
              0 0 2).2 p.1 p.2).1)) ∧
      (∀ x y : ℤ, 0 - 2 ≤ x → x ≤ 0 + 2 → 0 - 2 ≤ y → y ≤ 0 + 2 →
        (x, y) ∈ squareCoords 0 0 2) :=
  getChunksInRadius_complete constZeroRand (ChunkCache.init 0 sampleAssets) 0 0 2
    (by norm_num)

/-- C9.  `getChunk` is idempotent: a repeated call with the same coordinate
and no intervening cleanup returns the stored chunk unchanged and leaves
the cache state unchanged, and the first call stores the chunk it
returns. -/
theorem getChunk_idempotent (rand : ℝ → ℝ → ℝ → ℝ) (st : ChunkCache) (x y : ℤ) :
    (ChunkCache.getChunk rand (ChunkCache.getChunk rand st x y).2 x y).1 =
        (ChunkCache.getChunk rand st x y).1 ∧
      (ChunkCache.getChunk rand (ChunkCache.getChunk rand st x y).2 x y).2 =
        (ChunkCache.getChunk rand st x y).2 ∧
      cacheFind (ChunkCache.getChunk rand st x y).2.cache (getKey x y) =
        some (ChunkCache.getChunk rand st x y).1 := by
  have hself := getChunk_find_self rand st x y
  rw [getChunk_of_find rand _ x y hself]
  exact ⟨rfl, rfl, hself⟩

lemma wf_init (rand : ℝ → ℝ → ℝ → ℝ) (seed : ℝ) (assets : AssetDictionary) :
    ChunkCache.WF rand (ChunkCache.init seed assets) := by
  constructor
  · exact List.nodup_nil
  · intro p hp
    cases hp

lemma wf_getChunk (rand : ℝ → ℝ → ℝ → ℝ) (st : ChunkCache) (x y : ℤ)
    (h : ChunkCache.WF rand st) : ChunkCache.WF rand (ChunkCache.getChunk rand st x y).2 := by
  rcases hf : cacheFind st.cache (getKey x y) with _ | c
  · rw [getChunk_of_miss rand st x y hf]
    constructor
    · show ((st.cache ++ [(getKey x y, generateChunk rand x y st.seed st.assets)]).map
        Prod.fst).Nodup
      rw [List.map_append]
      refine List.Nodup.append h.1 (List.nodup_singleton _) ?_
      intro k hk1 hk2
      rw [List.mem_map] at hk1
      obtain ⟨p, hp, hpk⟩ := hk1
      simp only [List.map_cons, List.map_nil, List.mem_singleton] at hk2
      have hne := cacheFind_eq_none_iff.mp hf p hp
      exact hne (by rw [hpk, hk2])
    · intro p hp
      rcases List.mem_append.mp hp with hp | hp
      · exact h.2 p hp
      · rw [List.mem_singleton] at hp
        subst hp
        refine ⟨?_, ?_⟩
        · rw [generateChunk_chunkX, generateChunk_chunkY]
        · show generateChunk rand x y st.seed st.assets = _
          rw [generateChunk_chunkX, generateChunk_chunkY]
  · rw [getChunk_of_find rand st x y hf]
    exact h

lemma wf_getChunksList (rand : ℝ → ℝ → ℝ → ℝ) (ps : List (ℤ × ℤ)) :
    ∀ st : ChunkCache, ChunkCache.WF rand st →
      ChunkCache.WF rand (getChunksList rand st ps).2 := by
  induction ps with
  | nil => intro st h; exact h
  | cons p ps ih =>
    intro st h
    rw [getChunksList_cons]
    exact ih _ (wf_getChunk rand st p.1 p.2 h)

lemma wf_cleanup (rand : ℝ → ℝ → ℝ → ℝ) (st : ChunkCache) (cx cy kr : ℤ)
    (h : ChunkCache.WF rand st) : ChunkCache.WF rand (ChunkCache.cleanup st cx cy kr) := by
  constructor
  · exact h.1.sublist ((List.filter_sublist _).map Prod.fst)
  · intro p hp
    exact h.2 p (List.mem_of_mem_filter hp)

lemma reachable_wf (rand : ℝ → ℝ → ℝ → ℝ) (st : ChunkCache)
    (h : ChunkCache.Reachable rand st) : ChunkCache.WF rand st := by
  induction h with
  | init seed assets => exact wf_init rand seed assets
  | get x y _ ih => exact wf_getChunk rand _ x y ih
  | getRadius cx cy r _ ih =>
    rw [getChunksInRadius_eq_list]
    exact wf_getChunksList rand _ _ ih
  | clean cx cy kr _ ih => exact wf_cleanup rand _ cx cy kr ih

/-- C8.  After `cleanup(cx, cy, keepRadius)` on a well-formed cache: no
resident chunk lies outside the Chebyshev keep-window; every entry inside
the window survives unchanged; and for every evicted entry the key is gone,
so the next `getChunk` rebuilds the chunk, with contents identical to what
was evicted. -/
theorem cleanup_eviction_correct (rand : ℝ → ℝ → ℝ → ℝ) (st : ChunkCache)
    (cx cy kr : ℤ) (hwf : ChunkCache.WF rand st) :
    (∀ p ∈ (ChunkCache.cleanup st cx cy kr).cache,
        |p.2.chunkX - cx| ≤ kr ∧ |p.2.chunkY - cy| ≤ kr) ∧
      (∀ p ∈ st.cache, |p.2.chunkX - cx| ≤ kr → |p.2.chunkY - cy| ≤ kr →
        p ∈ (ChunkCache.cleanup st cx cy kr).cache) ∧
      (∀ p ∈ st.cache, (kr < |p.2.chunkX - cx| ∨ kr < |p.2.chunkY - cy|) →
        cacheFind (ChunkCache.cleanup st cx cy kr).cache
            (getKey p.2.chunkX p.2.chunkY) = none ∧
          (ChunkCache.getChunk rand (ChunkCache.cleanup st cx cy kr)
              p.2.chunkX p.2.chunkY).1 =
            generateChunk rand p.2.chunkX p.2.chunkY st.seed st.assets ∧
          (ChunkCache.getChunk rand (ChunkCache.cleanup st cx cy kr)
              p.2.chunkX p.2.chunkY).1 = p.2) := by
  refine ⟨?_, ?_, ?_⟩
  · intro p hp
    rw [ChunkCache.cleanup, List.mem_filter] at hp
    have := hp.2
    simp only [Bool.not_eq_true', Bool.or_eq_false_iff, decide_eq_false_iff_not,
      not_lt] at this
    exact this
  · intro p hp h1 h2
    rw [ChunkCache.cleanup, List.mem_filter]
    refine ⟨hp, ?_⟩
    simp only [Bool.not_eq_true', Bool.or_eq_false_iff, decide_eq_false_iff_not,
      not_lt]
    exact ⟨h1, h2⟩
  · intro p hp hout
    obtain ⟨hkey, hgen⟩ := hwf.2 p hp
    have hnone : cacheFind (ChunkCache.cleanup st cx cy kr).cache
        (getKey p.2.chunkX p.2.chunkY) = none := by
      rw [cacheFind_eq_none_iff]
      intro q hq hqk
      have hqst := List.mem_of_mem_filter hq
      have heq : q = p := by
        refine List.inj_on_of_nodup_map hwf.1 hqst hp ?_
        rw [hqk, hkey]
      subst heq
      rw [ChunkCache.cleanup, List.mem_filter] at hq
      have := hq.2
      simp only [Bool.not_eq_true', Bool.or_eq_false_iff, decide_eq_false_iff_not,
        not_lt] at this
      omega
    refine ⟨hnone, ?_, ?_⟩
    · rw [getChunk_of_miss rand _ _ _ hnone]
      rfl
    · rw [getChunk_of_miss rand _ _ _ hnone]
      exact hgen.symm

lemma w8_wf : ChunkCache.WF constZeroRand w8State :=
  wf_getChunk constZeroRand _ 5 0 (wf_init constZeroRand 0 sampleAssets)

lemma w8_cache :
    w8State.cache = [(getKey 5 0, generateChunk constZeroRand 5 0 0 sampleAssets)] := by
  unfold w8State
  rw [getChunk_of_miss constZeroRand (ChunkCache.init 0 sampleAssets) 5 0 rfl]
  rfl

/-- Witness for C8: evicting the chunk at `(5, 0)` with `cleanup(0, 0, 1)`
removes its key, and the next `getChunk` regenerates identical contents. -/
theorem cleanup_eviction_correct_witness :
    cacheFind (ChunkCache.cleanup w8State 0 0 1).cache (getKey 5 0) = none ∧
      (ChunkCache.getChunk constZeroRand (ChunkCache.cleanup w8State 0 0 1) 5 0).1 =
        generateChunk constZeroRand 5 0 0 sampleAssets := by
  have h := (cleanup_eviction_correct constZeroRand w8State 0 0 1 w8_wf).2.2
    (getKey 5 0, generateChunk constZeroRand 5 0 0 sampleAssets)
    (by rw [w8_cache]; exact List.mem_singleton_self _)
    (by left; rw [generateChunk_chunkX]; decide)
  exact ⟨h.1, h.2.1⟩

/-! Decimal-key machinery: the value read back from a digit list, used to
show the `"x,y"` template-literal key is injective on integer pairs. -/

lemma natVal_append (l : List Char) (c : Char) :
    natVal (l ++ [c]) = 10 * natVal l + (c.toNat - 48) := by
  unfold natVal
  rw [List.foldl_append]
  rfl

lemma digitChar_toNat : ∀ d : ℕ, d < 10 → (Nat.digitChar d).toNat = 48 + d := by
  decide

lemma natVal_natRepr : ∀ n : ℕ, natVal (natRepr n) = n := by
  intro n
  induction n using Nat.strong_induction_on with
  | _ n ih =>
    rw [natRepr]
    by_cases h : n < 10
    · rw [dif_pos h]
      show natVal [Nat.digitChar n] = n
      unfold natVal
      rw [List.foldl_cons, List.foldl_nil, digitChar_toNat n h]
      omega
    · rw [dif_neg h]
      rw [natVal_append, ih (n / 10) (Nat.div_lt_self (by omega) (by omega)),
        digitChar_toNat (n % 10) (Nat.mod_lt _ (by omega))]
      omega

lemma natRepr_inj : Function.Injective natRepr := by
  intro a b h
  rw [← natVal_natRepr a, ← natVal_natRepr b, h]

lemma natRepr_digits : ∀ n : ℕ, ∀ c ∈ natRepr n, 48 ≤ c.toNat ∧ c.toNat ≤ 57 := by
  intro n
  induction n using Nat.strong_induction_on with
  | _ n ih =>
    rw [natRepr]
    by_cases h : n < 10
    · rw [dif_pos h]
      intro c hc
      rw [List.mem_singleton] at hc
      subst hc
      rw [digitChar_toNat n h]
      omega
    · rw [dif_neg h]
      intro c hc
      rcases List.mem_append.mp hc with hc | hc
      · exact ih (n / 10) (Nat.div_lt_self (by omega) (by omega)) c hc
      · rw [List.mem_singleton] at hc
        subst hc
        rw [digitChar_toNat (n % 10) (Nat.mod_lt _ (by omega))]
        omega

lemma natRepr_ne_comma {n : ℕ} {c : Char} (h : c ∈ natRepr n) : c ≠ ',' := by
  intro heq
  subst heq
  have hb := natRepr_digits n ',' h
  have : (','.toNat) = 44 := by decide
  omega

lemma natRepr_ne_minus {n : ℕ} {c : Char} (h : c ∈ natRepr n) : c ≠ '-' := by
  intro heq
  subst heq
  have hb := natRepr_digits n '-' h
  have : ('-'.toNat) = 45 := by decide
  omega

lemma intRepr_inj : Function.Injective intRepr := by
  intro a b h
  unfold intRepr at h
  by_cases ha : a < 0 <;> by_cases hb : b < 0
  · rw [if_pos ha, if_pos hb] at h
    injection h with _ h2
    have := natRepr_inj h2
    omega
  · rw [if_pos ha, if_neg hb] at h
    have hm : '-' ∈ natRepr b.toNat := h ▸ List.mem_cons_self _ _
    exact absurd rfl (natRepr_ne_minus hm)
  · rw [if_neg ha, if_pos hb] at h
    have hm : '-' ∈ natRepr a.toNat := h.symm ▸ List.mem_cons_self _ _
    exact absurd rfl (natRepr_ne_minus hm)
  · rw [if_neg ha, if_neg hb] at h
    have := natRepr_inj h
    omega

lemma intRepr_ne_comma {i : ℤ} {c : Char} (h : c ∈ intRepr i) : c ≠ ',' := by
  unfold intRepr at h
  by_cases hi : i < 0
  · rw [if_pos hi] at h
    rcases List.mem_cons.mp h with h | h
    · subst h
      decide
    · exact natRepr_ne_comma h
  · rw [if_neg hi] at h
    exact natRepr_ne_comma h

lemma comma_split : ∀ (l1 : List Char) {l2 : List Char} (l1' : List Char)
    {l2' : List Char}, ',' ∉ l1 → ',' ∉ l1' →
    l1 ++ ',' :: l2 = l1' ++ ',' :: l2' → l1 = l1' ∧ l2 = l2' := by
  intro l1
  induction l1 with
  | nil =>
    intro l2 l1' l2' _ h1' h
    cases l1' with
    | nil =>
      rw [List.nil_append, List.nil_append] at h
      injection h with _ h2
      exact ⟨rfl, h2⟩
    | cons c t =>
      rw [List.nil_append, List.cons_append] at h
      injection h with hc _
      exact absurd (hc ▸ List.mem_cons_self c t) h1'
  | cons c t ih =>
    intro l2 l1' l2' h1 h1' h
    cases l1' with
    | nil =>
      rw [List.cons_append, List.nil_append] at h
      injection h with hc _
      exact absurd (hc.symm ▸ List.mem_cons_self c t) h1
    | cons c' t' =>
      rw [List.cons_append, List.cons_append] at h
      injection h with hc ht
      have hnt : ',' ∉ t := fun hm => h1 (List.mem_cons_of_mem _ hm)
      have hnt' : ',' ∉ t' := fun hm => h1' (List.mem_cons_of_mem _ hm)
      obtain ⟨he1, he2⟩ := ih t' hnt hnt' ht
      exact ⟨by rw [hc, he1], he2⟩

lemma getKey_inj {x1 y1 x2 y2 : ℤ} (h : getKey x1 y1 = getKey x2 y2) :
    x1 = x2 ∧ y1 = y2 := by
  unfold getKey at h
  have hdata : intRepr x1 ++ ',' :: intRepr y1 = intRepr x2 ++ ',' :: intRepr y2 := by
    injection h
  have hn1 : ',' ∉ intRepr x1 := fun hm => intRepr_ne_comma hm rfl
  have hn2 : ',' ∉ intRepr x2 := fun hm => intRepr_ne_comma hm rfl
  obtain ⟨ha, hb⟩ := comma_split (intRepr x1) (intRepr x2) hn1 hn2 hdata
  exact ⟨intRepr_inj ha, intRepr_inj hb⟩

/-- C10.  On every reachable cache state, `getChunk(x, y)` returns a chunk
whose `chunkX`/`chunkY` are exactly `(x, y)`; the `"x,y"` key is injective
on integer pairs, so the cache never serves one coordinate's chunk for
another coordinate. -/
theorem getChunk_coord_correct (rand : ℝ → ℝ → ℝ → ℝ) (st : ChunkCache) (x y : ℤ)
    (hreach : ChunkCache.Reachable rand st) :
    (ChunkCache.getChunk rand st x y).1.chunkX = x ∧
      (ChunkCache.getChunk rand st x y).1.chunkY = y ∧
      Function.Injective (fun p : ℤ × ℤ => getKey p.1 p.2) := by
  have hwf := reachable_wf rand st hreach
  have hinj : Function.Injective (fun p : ℤ × ℤ => getKey p.1 p.2) := by
    intro p q hpq
    obtain ⟨h1, h2⟩ := getKey_inj hpq
    exact Prod.ext h1 h2
  rcases hf : cacheFind st.cache (getKey x y) with _ | c
  · rw [getChunk_of_miss rand st x y hf]
    exact ⟨generateChunk_chunkX rand x y st.seed st.assets,
      generateChunk_chunkY rand x y st.seed st.assets, hinj⟩
  · rw [getChunk_of_find rand st x y hf]
    have hp := hwf.2 (getKey x y, c) (cacheFind_mem hf)
    obtain ⟨hcx, hcy⟩ := getKey_inj hp.1.symm
    refine ⟨?_, ?_, hinj⟩
    · show c.chunkX = x
      exact hcx
    · show c.chunkY = y
      exact hcy

/-- Witness for C10 at a fresh cache and coordinate `(3, -4)`. -/
theorem getChunk_coord_correct_witness :
    (ChunkCache.getChunk constZeroRand (ChunkCache.init 0 sampleAssets) 3 (-4)).1.chunkX
        = 3 ∧
      (ChunkCache.getChunk constZeroRand (ChunkCache.init 0 sampleAssets) 3 (-4)).1.chunkY
        = -4 ∧
      Function.Injective (fun p : ℤ × ℤ => getKey p.1 p.2) :=
  getChunk_coord_correct constZeroRand (ChunkCache.init 0 sampleAssets) 3 (-4)
    (ChunkCache.Reachable.init 0 sampleAssets)
